import Mathlib

/-!
# graphqlws: negotiation and handoff layer

A shallow embedding of `graphqlws/http.go`.

Go functions with side effects are state transformers over an abstract world
`σ` (everything the external collaborators can read or write: generator
closures, the network, the response writer).  Besides the world, every
function of the layer returns the list of external calls it made, in the order
it made them, so that "is invoked exactly once" and "is never invoked" are
statements about that list.
-/

namespace graphqlws

/-! ## External types -/

/-- Values of `context.Context`: the nil interface value, `context.Background()`
and contexts derived with `context.WithValue`. -/
inductive Context where
  | nil
  | background
  | withValue (parent : Context) (key val : String)
deriving DecidableEq, Repr

/-- A Go `error` value that is not nil; the nil error is `none : Option Error`.
An error is either a plain one (`errors.New(msg)`) or one of a named kind
that wraps a cause: its `Unwrap()` returns the cause. -/
inductive Error where
  | mk (msg : String)
  | wrap (kind : String) (cause : Error)
deriving DecidableEq, Repr

/-- The part of `*http.Request` the layer can look at: the header map. -/
structure Request where
  Header : List (String × List String)
deriving DecidableEq, Repr

/-- The `http.ResponseWriter` of one exchange, a handle. -/
structure ResponseWriter where
  id : Nat
deriving DecidableEq, Repr

/-- The `*websocket.Conn` an upgrade returns, with the subprotocol it negotiated. -/
structure Conn where
  id : Nat
  subprotocol : String
deriving DecidableEq, Repr

/-- Method `(*websocket.Conn).Subprotocol`. -/
def Conn.Subprotocol (ws : Conn) : String := ws.subprotocol

/-- A `connection.GraphQLService`, a handle. -/
structure GraphQLService where
  name : String
deriving DecidableEq, Repr

/-- One external call made by the layer. -/
inductive Event where
  -- `g.BuildContext(ctx, r)` on the generator at position `idx` of the slice
  | buildContext (idx : Nat) (ctx : Context) (r : Request)
  -- `upgrader.Upgrade(w, r, nil)`
  | upgrade (w : ResponseWriter) (r : Request)
  -- `ws.Close()`
  | close (ws : Conn)
  -- `go connection.Connect(ctx, ws, svc)`
  | connect (ctx : Context) (ws : Conn) (svc : GraphQLService)
  -- `httpHandler.ServeHTTP(w, r)`
  | serveHTTP (w : ResponseWriter) (r : Request)
  -- a nil pointer dereference, which ends the call
  | nilDeref
deriving DecidableEq, Repr

/-- What a call returns: its Go return value, the world after it, and the
external calls it made. -/
structure Ran (σ α : Type) where
  ret : α
  world : σ
  trace : List Event
deriving DecidableEq

/-- Constant `protocolGraphQLWS`. -/
def protocolGraphQLWS : String := "graphql-ws"

/-- The library code the layer calls: `websocket.Subprotocols`, the method
`Upgrade` of the package variable `upgrader` (whose `CheckOrigin` and
`Subprotocols` fields are part of that behaviour), and `(*websocket.Conn).Close`.
`Upgrade` returns the Go pair `(*Conn, error)`, here with any behaviour. -/
structure Externals (σ : Type) where
  Subprotocols : Request → List String
  Upgrade : ResponseWriter → Request → σ → (Option Conn × Option Error) × σ
  Close : Conn → σ → σ

/-- An `http.Handler`. -/
structure Handler (σ : Type) where
  ServeHTTP : ResponseWriter → Request → σ → σ

/-! ## http.go -/

/-- Type `ContextGeneratorFunc`: returns the Go pair `(context.Context, error)`. -/
abbrev ContextGeneratorFunc (σ : Type) :=
  Context → Request → σ → (Context × Option Error) × σ

/-- Interface `ContextGenerator`. -/
structure ContextGenerator (σ : Type) where
  BuildContext : Context → Request → σ → (Context × Option Error) × σ

/-- Method `BuildContext` of `ContextGeneratorFunc`: calls `f(ctx, r)`. -/
def ContextGeneratorFunc.BuildContext {σ : Type} (f : ContextGeneratorFunc σ)
    (ctx : Context) (r : Request) (s : σ) : (Context × Option Error) × σ :=
  f ctx r s

/-- Struct `options`. -/
structure options (σ : Type) where
  contextGenerators : List (ContextGenerator σ)

/-- Type `optionFunc`, a `func(*options)`: the write through the pointer is the
returned value. -/
abbrev optionFunc (σ : Type) := options σ → options σ

/-- Interface `Option` (the source name is that of the Lean type `Option`). -/
structure HandlerOption (σ : Type) where
  apply : options σ → options σ

/-- Method `apply` of `optionFunc`. -/
def optionFunc.apply {σ : Type} (f : optionFunc σ) (o : options σ) : options σ := f o

/-- Function `WithContextGenerator`. -/
def WithContextGenerator {σ : Type} (f : ContextGenerator σ) : HandlerOption σ :=
  { apply := optionFunc.apply (fun o =>
      { o with contextGenerators := o.contextGenerators ++ [f] }) }

/-- Function `applyOptions`: starts from the zero value of `options` and returns a
pointer to the result (`some`). -/
def applyOptions {σ : Type} (opts : List (HandlerOption σ)) : Option (options σ) :=
  some (opts.foldl (fun o op => op.apply o) { contextGenerators := [] })

/-- The `for _, g := range generators` loop of `buildContext`, from position
`idx` of the slice with current context `ctx`. -/
def buildContextLoop {σ : Type} (r : Request) :
    List (ContextGenerator σ) → Nat → Context → σ → Ran σ (Context × Option Error)
  | [], _, ctx, s => { ret := (ctx, none), world := s, trace := [] }
  | g :: gs, idx, ctx, s =>
    match g.BuildContext ctx r s with
    | ((_, some err), s1) =>
      { ret := (Context.nil, some err), world := s1,
        trace := [Event.buildContext idx ctx r] }
    | ((ctx1, none), s1) =>
      let rest := buildContextLoop r gs (idx + 1) ctx1 s1
      { rest with trace := Event.buildContext idx ctx r :: rest.trace }

/-- Function `buildContext`. -/
def buildContext {σ : Type} (r : Request) (generators : List (ContextGenerator σ))
    (s : σ) : Ran σ (Context × Option Error) :=
  buildContextLoop r generators 0 Context.background s

/-- Lines 78 to 84 of `processHTTPRequst`, the `if options != nil` block: the
pointer `ctx` after the block, and the error on which the function returns. -/
def contextStage {σ : Type} (r : Request) (ctx : Option Context)
    (opts : Option (options σ)) (s : σ) : Ran σ (Option Context × Option Error) :=
  match opts with
  | none => { ret := (ctx, none), world := s, trace := [] }
  | some o =>
    let built := buildContext r o.contextGenerators s
    match built.ret with
    | (_, some err) => { ret := (ctx, some err), world := built.world, trace := built.trace }
    | (c, none) => { ret := (some c, none), world := built.world, trace := built.trace }

/-- Lines 78 to 96 of `processHTTPRequst`, the body of
`if subprotocol == "graphql-ws"`; every path through it returns. -/
def negotiate {σ : Type} (env : Externals σ) (ctx : Option Context)
    (opts : Option (options σ)) (svc : GraphQLService) (w : ResponseWriter)
    (r : Request) (s : σ) : Ran σ Unit :=
  let staged := contextStage r ctx opts s
  match staged.ret with
  | (_, some _) => { ret := (), world := staged.world, trace := staged.trace }
  | (ctx1, none) =>
    match env.Upgrade w r staged.world with
    | ((_, some _), s1) =>
      { ret := (), world := s1, trace := staged.trace ++ [Event.upgrade w r] }
    | ((none, none), s1) =>
      { ret := (), world := s1, trace := staged.trace ++ [Event.upgrade w r, Event.nilDeref] }
    | ((some ws, none), s1) =>
      if ws.Subprotocol ≠ protocolGraphQLWS then
        { ret := (), world := env.Close ws s1,
          trace := staged.trace ++ [Event.upgrade w r, Event.close ws] }
      else
        match ctx1 with
        | none =>
          { ret := (), world := s1,
            trace := staged.trace ++ [Event.upgrade w r, Event.nilDeref] }
        | some c =>
          { ret := (), world := s1,
            trace := staged.trace ++ [Event.upgrade w r, Event.connect c ws svc] }

/-- The `for _, subprotocol := range websocket.Subprotocols(r)` loop of
`processHTTPRequst` over the entries still to visit, with the fallback of line
100 when the loop ends. -/
def subprotocolLoop {σ : Type} (env : Externals σ) (ctx : Option Context)
    (opts : Option (options σ)) (svc : GraphQLService) (httpHandler : Handler σ)
    (w : ResponseWriter) (r : Request) : List String → σ → Ran σ Unit
  | [], s =>
    { ret := (), world := httpHandler.ServeHTTP w r s, trace := [Event.serveHTTP w r] }
  | subprotocol :: rest, s =>
    if subprotocol = "graphql-ws" then negotiate env ctx opts svc w r s
    else subprotocolLoop env ctx opts svc httpHandler w r rest s

/-- Function `processHTTPRequst`; the pointers `ctx` and `options` are `Option`s. -/
def processHTTPRequst {σ : Type} (env : Externals σ) (ctx : Option Context)
    (opts : Option (options σ)) (svc : GraphQLService) (httpHandler : Handler σ)
    (w : ResponseWriter) (r : Request) (s : σ) : Ran σ Unit :=
  let ctx0 := if ctx.isNone && opts.isNone then some Context.background else ctx
  subprotocolLoop env ctx0 opts svc httpHandler w r (env.Subprotocols r) s

/-- Function `NewHandler`. -/
def NewHandler {σ : Type} (env : Externals σ) (ctx : Context) (svc : GraphQLService)
    (httpHandler : Handler σ) : ResponseWriter → Request → σ → Ran σ Unit :=
  fun w r => processHTTPRequst env (some ctx) none svc httpHandler w r

/-- Function `NewHandlerFunc`. -/
def NewHandlerFunc {σ : Type} (env : Externals σ) (svc : GraphQLService)
    (httpHandler : Handler σ) (opts : List (HandlerOption σ)) :
    ResponseWriter → Request → σ → Ran σ Unit :=
  let o := applyOptions opts
  fun w r => processHTTPRequst env none o svc httpHandler w r

/-! ## Vocabulary of the specification -/

/-- The left fold of the specification: every generator of the list is run, in
list order, on the context and world its predecessor left. -/
def foldGenerators {σ : Type} (r : Request) (gs : List (ContextGenerator σ))
    (ctx : Context) (s : σ) : Context × σ :=
  gs.foldl (fun cs g => ((g.BuildContext cs.1 r cs.2).1.1, (g.BuildContext cs.1 r cs.2).2))
    (ctx, s)

/-- Every generator of the list succeeds (returns a nil error) when the list is
run in order from context `ctx` and world `s`. -/
def AllSucceed {σ : Type} (r : Request) :
    List (ContextGenerator σ) → Context → σ → Prop
  | [], _, _ => True
  | g :: gs, ctx, s =>
    (g.BuildContext ctx r s).1.2 = none ∧
      AllSucceed r gs (g.BuildContext ctx r s).1.1 (g.BuildContext ctx r s).2

/-- The calls "generators 1 to n of `gs`, each once, in list order, each on the
output context of its predecessor and the request `r`", starting from the
empty base context. -/
def pipelineCalls {σ : Type} (r : Request) (gs : List (ContextGenerator σ)) (n : Nat)
    (s : σ) : List Event :=
  (List.range n).map
    (fun i => Event.buildContext i (foldGenerators r (gs.take i) Context.background s).1 r)

/-- Number of handoffs `go connection.Connect` in a trace. -/
def connects (tr : List Event) : Nat :=
  (tr.filter (fun e => match e with | Event.connect _ _ _ => true | _ => false)).length

/-- Number of calls of `upgrader.Upgrade` in a trace. -/
def upgrades (tr : List Event) : Nat :=
  (tr.filter (fun e => match e with | Event.upgrade _ _ => true | _ => false)).length

/-- Number of calls of `ws.Close` in a trace. -/
def closes (tr : List Event) : Nat :=
  (tr.filter (fun e => match e with | Event.close _ => true | _ => false)).length

/-- Number of calls of `httpHandler.ServeHTTP` in a trace. -/
def fallbacks (tr : List Event) : Nat :=
  (tr.filter (fun e => match e with | Event.serveHTTP _ _ => true | _ => false)).length

/-- Number of context generator calls in a trace. -/
def generatorCalls (tr : List Event) : Nat :=
  (tr.filter (fun e => match e with | Event.buildContext _ _ _ => true | _ => false)).length

/-- The context pipeline of one request, if the handler has one (`options` is
not nil): the error it ends with, the world it leaves, the calls it makes. -/
def pipeline {σ : Type} (r : Request) (opts : Option (options σ)) (s : σ) :
    Ran σ (Option Error) :=
  match opts with
  | none => { ret := none, world := s, trace := [] }
  | some o =>
    { ret := (buildContext r o.contextGenerators s).ret.2,
      world := (buildContext r o.contextGenerators s).world,
      trace := (buildContext r o.contextGenerators s).trace }

/-- The request is successfully negotiated: the offered list contains
"graphql-ws", the context pipeline (if any) succeeds, `upgrader.Upgrade`
succeeds, and the upgraded channel reports the subprotocol "graphql-ws". -/
def negotiated {σ : Type} (env : Externals σ) (opts : Option (options σ))
    (w : ResponseWriter) (r : Request) (s : σ) : Bool :=
  decide ("graphql-ws" ∈ env.Subprotocols r) && (pipeline r opts s).ret.isNone &&
    (match env.Upgrade w r (pipeline r opts s).world with
     | ((some ws, none), _) => decide (ws.Subprotocol = "graphql-ws")
     | _ => false)

/-- The context handed to the protocol engine: the pointer `ctx` as it stands
at line 95, after the nil check of line 72 and the block of lines 78 to 84. -/
def handoffContext {σ : Type} (r : Request) (ctx : Option Context)
    (opts : Option (options σ)) (s : σ) : Context :=
  match opts, ctx with
  | some o, _ => (buildContext r o.contextGenerators s).ret.1
  | none, some c => c
  | none, none => Context.background

/-- Go's `errors.Unwrap`: the cause an error wraps, if it wraps one. -/
def Error.Unwrap : Error → Option Error
  | Error.mk _ => none
  | Error.wrap _ cause => some cause

/-- The error kind `ContextBuildError` of the specification, in its words: an
error of that kind that wraps the failure `cause` of a pipeline step. -/
def ContextBuildError (cause : Error) : Error := Error.wrap "ContextBuildError" cause

/-! ## Example collaborators -/

/-- Go's `strings.TrimSpace` on a list of characters. -/
def trimSpace (cs : List Char) : List Char :=
  ((cs.dropWhile Char.isWhitespace).reverse.dropWhile Char.isWhitespace).reverse

/-- Go's `strings.Split(h, ",")` on a list of characters; `cur` holds, in
reverse, the characters of the piece being read. -/
def splitCommas : List Char → List Char → List (List Char)
  | [], cur => [cur.reverse]
  | c :: cs, cur => if c = ',' then cur.reverse :: splitCommas cs [] else splitCommas cs (c :: cur)

/-- The function `websocket.Subprotocols` of the gorilla library: the first
value of the `Sec-Websocket-Protocol` header, trimmed; nothing when it is
empty, else its pieces between commas, each trimmed. -/
def headerSubprotocols (r : Request) : List String :=
  let h := trimSpace (((r.Header.lookup "Sec-Websocket-Protocol").getD []).headD "").data
  if h = [] then [] else (splitCommas h []).map (fun piece => String.mk (trimSpace piece))

/-- Library code of the examples.  The world is the log of what the
collaborators did; the offers are read from the header as the gorilla library
reads them; every upgrade returns the pair `up`. -/
def demoExternals (up : Option Conn × Option Error) : Externals (List String) :=
  { Subprotocols := headerSubprotocols
    Upgrade := fun _ _ s => (up, s ++ ["upgrade"])
    Close := fun _ s => s ++ ["close"] }

/-- A fallback handler that logs its call. -/
def demoHandler : Handler (List String) :=
  { ServeHTTP := fun _ _ s => s ++ ["fallback"] }

/-- A service reference. -/
def demoService : GraphQLService := { name := "svc" }

/-- A response writer. -/
def demoWriter : ResponseWriter := { id := 7 }

/-- A request offering only near misses of "graphql-ws". -/
def chatRequest : Request :=
  { Header := [("Sec-Websocket-Protocol", ["GraphQL-WS, graphql-ws2,chat"])] }

/-- A request offering "graphql-ws", twice, after another subprotocol. -/
def wsRequest : Request :=
  { Header := [("Sec-Websocket-Protocol", [" chat, graphql-ws,graphql-ws "])] }

/-- A channel upgraded to "graphql-ws". -/
def demoConn : Conn := { id := 1, subprotocol := "graphql-ws" }

/-- A channel upgraded to another subprotocol. -/
def otherConn : Conn := { id := 2, subprotocol := "chat" }

/-- A generator that logs its name and derives a context with a value under
that name. -/
def markGenerator (name : String) : ContextGenerator (List String) :=
  { BuildContext := fun ctx _ s => ((Context.withValue ctx name "set", none), s ++ [name]) }

/-- A generator that logs its name and fails, returning its input context
along with the error. -/
def failGenerator (name : String) : ContextGenerator (List String) :=
  { BuildContext := fun ctx _ s => ((ctx, some (Error.mk name)), s ++ [name]) }

/-! ## The context pipeline -/

theorem foldGenerators_nil {σ : Type} (r : Request) (ctx : Context) (s : σ) :
    foldGenerators r ([] : List (ContextGenerator σ)) ctx s = (ctx, s) := rfl

theorem foldGenerators_cons {σ : Type} (r : Request) (g : ContextGenerator σ)
    (gs : List (ContextGenerator σ)) (ctx : Context) (s : σ) :
    foldGenerators r (g :: gs) ctx s =
      foldGenerators r gs (g.BuildContext ctx r s).1.1 (g.BuildContext ctx r s).2 := rfl

/-- The loop of `buildContext` on a list whose generators all succeed. -/
theorem buildContextLoop_allSucceed {σ : Type} (r : Request)
    (gs : List (ContextGenerator σ)) :
    ∀ (idx : Nat) (ctx : Context) (s : σ), AllSucceed r gs ctx s →
      buildContextLoop r gs idx ctx s =
        { ret := ((foldGenerators r gs ctx s).1, none),
          world := (foldGenerators r gs ctx s).2,
          trace := (List.range gs.length).map
            (fun i => Event.buildContext (idx + i) (foldGenerators r (gs.take i) ctx s).1 r) } := by
  induction gs with
  | nil => intro idx ctx s _; simp [buildContextLoop, foldGenerators]
  | cons g gs ih =>
    intro idx ctx s h
    obtain ⟨h1, h2⟩ := h
    rcases hg : g.BuildContext ctx r s with ⟨⟨c1, e1⟩, s1⟩
    rw [hg] at h1 h2
    simp only at h1 h2
    subst h1
    simp only [buildContextLoop, hg, ih (idx + 1) c1 s1 h2, foldGenerators_cons,
      List.length_cons, List.range_succ_eq_map, List.map_cons, List.map_map,
      List.take_zero, foldGenerators_nil, Nat.add_zero, Ran.mk.injEq, true_and,
      List.cons.injEq]
    apply List.map_congr_left
    intro i _
    simp [foldGenerators_cons, hg, Nat.add_assoc, Nat.add_comm 1 i]

/-- The loop of `buildContext` on a list whose first failing generator is `g`. -/
theorem buildContextLoop_firstFailure {σ : Type} (r : Request)
    (pre : List (ContextGenerator σ)) (g : ContextGenerator σ)
    (post : List (ContextGenerator σ)) (e : Error) :
    ∀ (idx : Nat) (ctx : Context) (s : σ), AllSucceed r pre ctx s →
      (g.BuildContext (foldGenerators r pre ctx s).1 r (foldGenerators r pre ctx s).2).1.2
        = some e →
      buildContextLoop r (pre ++ g :: post) idx ctx s =
        { ret := (Context.nil, some e),
          world := (g.BuildContext (foldGenerators r pre ctx s).1 r
            (foldGenerators r pre ctx s).2).2,
          trace := (List.range (pre.length + 1)).map
            (fun i => Event.buildContext (idx + i) (foldGenerators r (pre.take i) ctx s).1 r) } := by
  induction pre with
  | nil =>
    intro idx ctx s _ hf
    rcases hg : g.BuildContext ctx r s with ⟨⟨c1, e1⟩, s1⟩
    simp only [foldGenerators_nil, hg] at hf
    subst hf
    simp [buildContextLoop, hg, foldGenerators_nil, List.range_succ]
  | cons p pre ih =>
    intro idx ctx s h hf
    obtain ⟨h1, h2⟩ := h
    rcases hp : p.BuildContext ctx r s with ⟨⟨c1, e1⟩, s1⟩
    rw [hp] at h1 h2
    simp only at h1 h2
    subst h1
    rw [foldGenerators_cons, hp] at hf
    simp only at hf
    have ih1 := ih (idx + 1) c1 s1 h2 hf
    rw [List.cons_append]
    simp only [buildContextLoop, hp, ih1,
      foldGenerators_cons, List.length_cons, List.range_succ_eq_map (pre.length + 1),
      List.map_cons, List.map_map, List.take_zero, foldGenerators_nil, Nat.add_zero,
      Ran.mk.injEq, true_and, List.cons.injEq]
    apply List.map_congr_left
    intro i _
    simp [foldGenerators_cons, hp, Nat.add_assoc, Nat.add_comm 1 i]

/-- The loop of `buildContext` calls nothing but generators. -/
theorem buildContextLoop_events {σ : Type} (r : Request) (gs : List (ContextGenerator σ)) :
    ∀ (idx : Nat) (ctx : Context) (s : σ),
      ∀ ev ∈ (buildContextLoop r gs idx ctx s).trace, ∃ i c, ev = Event.buildContext i c r := by
  induction gs with
  | nil => intro idx ctx s ev hev; simp [buildContextLoop] at hev
  | cons g gs ih =>
    intro idx ctx s ev hev
    rcases hg : g.BuildContext ctx r s with ⟨⟨c1, e1⟩, s1⟩
    cases e1 with
    | some e =>
      simp only [buildContextLoop, hg, List.mem_singleton] at hev
      exact ⟨idx, ctx, hev⟩
    | none =>
      simp only [buildContextLoop, hg, List.mem_cons] at hev
      rcases hev with hev | hev
      · exact ⟨idx, ctx, hev⟩
      · exact ih (idx + 1) c1 s1 ev hev

/-- The context pipeline calls nothing but generators. -/
theorem pipeline_events {σ : Type} (r : Request) (opts : Option (options σ)) (s : σ) :
    ∀ ev ∈ (pipeline r opts s).trace, ∃ i c, ev = Event.buildContext i c r := by
  cases opts with
  | none => intro ev hev; simp [pipeline] at hev
  | some o => exact buildContextLoop_events r o.contextGenerators 0 Context.background s

theorem connects_append (a b : List Event) : connects (a ++ b) = connects a + connects b := by
  simp [connects, List.filter_append]

theorem upgrades_append (a b : List Event) : upgrades (a ++ b) = upgrades a + upgrades b := by
  simp [upgrades, List.filter_append]

theorem closes_append (a b : List Event) : closes (a ++ b) = closes a + closes b := by
  simp [closes, List.filter_append]

theorem fallbacks_append (a b : List Event) : fallbacks (a ++ b) = fallbacks a + fallbacks b := by
  simp [fallbacks, List.filter_append]

/-- A trace of generator calls holds no upgrade, close, handoff or fallback. -/
theorem generatorTrace_counts (r : Request) (tr : List Event)
    (h : ∀ ev ∈ tr, ∃ i c, ev = Event.buildContext i c r) :
    connects tr = 0 ∧ upgrades tr = 0 ∧ closes tr = 0 ∧ fallbacks tr = 0 := by
  induction tr with
  | nil => simp [connects, upgrades, closes, fallbacks]
  | cons ev tr ih =>
    obtain ⟨i, c, hev⟩ := h ev (List.mem_cons_self ev tr)
    have ih1 := ih (fun x hx => h x (List.mem_cons_of_mem ev hx))
    subst hev
    simpa [connects, upgrades, closes, fallbacks] using ih1

theorem pipeline_counts {σ : Type} (r : Request) (opts : Option (options σ)) (s : σ) :
    connects (pipeline r opts s).trace = 0 ∧ upgrades (pipeline r opts s).trace = 0 ∧
      closes (pipeline r opts s).trace = 0 ∧ fallbacks (pipeline r opts s).trace = 0 :=
  generatorTrace_counts r _ (pipeline_events r opts s)

/-! ## The negotiator -/

/-- A list of offers without "graphql-ws" ends in the fallback. -/
theorem subprotocolLoop_noMatch {σ : Type} (env : Externals σ) (ctx : Option Context)
    (opts : Option (options σ)) (svc : GraphQLService) (httpHandler : Handler σ)
    (w : ResponseWriter) (r : Request) (s : σ) (offers : List String)
    (h : "graphql-ws" ∉ offers) :
    subprotocolLoop env ctx opts svc httpHandler w r offers s =
      { ret := (), world := httpHandler.ServeHTTP w r s, trace := [Event.serveHTTP w r] } := by
  induction offers with
  | nil => rfl
  | cons sp rest ih =>
    have h1 : ¬ sp = "graphql-ws" := fun hc => h (by simp [hc])
    have h2 : "graphql-ws" ∉ rest := fun hc => h (List.mem_cons_of_mem sp hc)
    simp only [subprotocolLoop, h1, if_false, ih h2]

/-- A list of offers with "graphql-ws" runs the negotiation, once. -/
theorem subprotocolLoop_match {σ : Type} (env : Externals σ) (ctx : Option Context)
    (opts : Option (options σ)) (svc : GraphQLService) (httpHandler : Handler σ)
    (w : ResponseWriter) (r : Request) (s : σ) (offers : List String)
    (h : "graphql-ws" ∈ offers) :
    subprotocolLoop env ctx opts svc httpHandler w r offers s =
      negotiate env ctx opts svc w r s := by
  induction offers with
  | nil => simp at h
  | cons sp rest ih =>
    by_cases h1 : sp = "graphql-ws"
    · simp only [subprotocolLoop, h1, if_true]
    · have h2 : "graphql-ws" ∈ rest := by
        rcases List.mem_cons.mp h with hc | hc
        · exact absurd hc.symm h1
        · exact hc
      simp only [subprotocolLoop, h1, if_false, ih h2]

/-- A failing context pipeline ends the request after the pipeline. -/
theorem processHTTPRequst_pipelineError {σ : Type} (env : Externals σ)
    (ctx : Option Context) (opts : Option (options σ)) (svc : GraphQLService)
    (httpHandler : Handler σ) (w : ResponseWriter) (r : Request) (s : σ) (e : Error)
    (hoffer : "graphql-ws" ∈ env.Subprotocols r)
    (hpipe : (pipeline r opts s).ret = some e) :
    processHTTPRequst env ctx opts svc httpHandler w r s =
      { ret := (), world := (pipeline r opts s).world, trace := (pipeline r opts s).trace } := by
  unfold processHTTPRequst
  simp only [subprotocolLoop_match env _ opts svc httpHandler w r s _ hoffer]
  cases opts with
  | none => simp [pipeline] at hpipe
  | some o =>
    simp only [pipeline] at hpipe ⊢
    rcases hb : (buildContext r o.contextGenerators s).ret with ⟨c1, e1⟩
    rw [hb] at hpipe
    simp only at hpipe
    subst hpipe
    simp [negotiate, contextStage, hb]

/-- After a successful pipeline, a failing upgrade ends the request. -/
theorem processHTTPRequst_upgradeError {σ : Type} (env : Externals σ)
    (ctx : Option Context) (opts : Option (options σ)) (svc : GraphQLService)
    (httpHandler : Handler σ) (w : ResponseWriter) (r : Request) (s s1 : σ)
    (ws : Option Conn) (e : Error)
    (hoffer : "graphql-ws" ∈ env.Subprotocols r)
    (hpipe : (pipeline r opts s).ret = none)
    (hup : env.Upgrade w r (pipeline r opts s).world = ((ws, some e), s1)) :
    processHTTPRequst env ctx opts svc httpHandler w r s =
      { ret := (), world := s1, trace := (pipeline r opts s).trace ++ [Event.upgrade w r] } := by
  unfold processHTTPRequst
  simp only [subprotocolLoop_match env _ opts svc httpHandler w r s _ hoffer]
  cases opts with
  | none =>
    simp only [pipeline] at hup ⊢
    simp [negotiate, contextStage, hup]
  | some o =>
    simp only [pipeline] at hpipe hup ⊢
    rcases hb : (buildContext r o.contextGenerators s).ret with ⟨c1, e1⟩
    rw [hb] at hpipe
    simp only at hpipe
    subst hpipe
    simp [negotiate, contextStage, hb, hup]

/-- After a successful pipeline, an upgrade that returns neither a channel nor
an error ends the request in a nil dereference. -/
theorem processHTTPRequst_upgradeNil {σ : Type} (env : Externals σ)
    (ctx : Option Context) (opts : Option (options σ)) (svc : GraphQLService)
    (httpHandler : Handler σ) (w : ResponseWriter) (r : Request) (s s1 : σ)
    (hoffer : "graphql-ws" ∈ env.Subprotocols r)
    (hpipe : (pipeline r opts s).ret = none)
    (hup : env.Upgrade w r (pipeline r opts s).world = ((none, none), s1)) :
    processHTTPRequst env ctx opts svc httpHandler w r s =
      { ret := (), world := s1,
        trace := (pipeline r opts s).trace ++ [Event.upgrade w r, Event.nilDeref] } := by
  unfold processHTTPRequst
  simp only [subprotocolLoop_match env _ opts svc httpHandler w r s _ hoffer]
  cases opts with
  | none =>
    simp only [pipeline] at hup ⊢
    simp [negotiate, contextStage, hup]
  | some o =>
    simp only [pipeline] at hpipe hup ⊢
    rcases hb : (buildContext r o.contextGenerators s).ret with ⟨c1, e1⟩
    rw [hb] at hpipe
    simp only at hpipe
    subst hpipe
    simp [negotiate, contextStage, hb, hup]

/-- After a successful pipeline and upgrade, a channel with another subprotocol
is closed and the request ends. -/
theorem processHTTPRequst_mismatch {σ : Type} (env : Externals σ)
    (ctx : Option Context) (opts : Option (options σ)) (svc : GraphQLService)
    (httpHandler : Handler σ) (w : ResponseWriter) (r : Request) (s s1 : σ) (ws : Conn)
    (hoffer : "graphql-ws" ∈ env.Subprotocols r)
    (hpipe : (pipeline r opts s).ret = none)
    (hup : env.Upgrade w r (pipeline r opts s).world = ((some ws, none), s1))
    (hsub : ws.Subprotocol ≠ "graphql-ws") :
    processHTTPRequst env ctx opts svc httpHandler w r s =
      { ret := (), world := env.Close ws s1,
        trace := (pipeline r opts s).trace ++ [Event.upgrade w r, Event.close ws] } := by
  unfold processHTTPRequst
  simp only [subprotocolLoop_match env _ opts svc httpHandler w r s _ hoffer]
  cases opts with
  | none =>
    simp only [pipeline] at hup ⊢
    simp [negotiate, contextStage, hup, protocolGraphQLWS, hsub]
  | some o =>
    simp only [pipeline] at hpipe hup ⊢
    rcases hb : (buildContext r o.contextGenerators s).ret with ⟨c1, e1⟩
    rw [hb] at hpipe
    simp only at hpipe
    subst hpipe
    simp [negotiate, contextStage, hb, hup, protocolGraphQLWS, hsub]

/-- After a successful pipeline and upgrade to "graphql-ws", the handoff is
started with the context of line 95. -/
theorem processHTTPRequst_handoff {σ : Type} (env : Externals σ)
    (ctx : Option Context) (opts : Option (options σ)) (svc : GraphQLService)
    (httpHandler : Handler σ) (w : ResponseWriter) (r : Request) (s s1 : σ) (ws : Conn)
    (hoffer : "graphql-ws" ∈ env.Subprotocols r)
    (hpipe : (pipeline r opts s).ret = none)
    (hup : env.Upgrade w r (pipeline r opts s).world = ((some ws, none), s1))
    (hsub : ws.Subprotocol = "graphql-ws") :
    processHTTPRequst env ctx opts svc httpHandler w r s =
      { ret := (), world := s1,
        trace := (pipeline r opts s).trace ++
          [Event.upgrade w r, Event.connect (handoffContext r ctx opts s) ws svc] } := by
  unfold processHTTPRequst
  simp only [subprotocolLoop_match env _ opts svc httpHandler w r s _ hoffer]
  cases opts with
  | none =>
    simp only [pipeline] at hup ⊢
    cases ctx <;>
      simp [negotiate, contextStage, hup, protocolGraphQLWS, hsub, handoffContext]
  | some o =>
    simp only [pipeline] at hpipe hup ⊢
    rcases hb : (buildContext r o.contextGenerators s).ret with ⟨c1, e1⟩
    rw [hb] at hpipe
    simp only at hpipe
    subst hpipe
    cases ctx <;>
      simp [negotiate, contextStage, hb, hup, protocolGraphQLWS, hsub, handoffContext]

/-! ## The configuration builder -/

theorem foldl_WithContextGenerator {σ : Type} (gs : List (ContextGenerator σ)) :
    ∀ o : options σ,
      (gs.map WithContextGenerator).foldl (fun o op => op.apply o) o =
        { contextGenerators := o.contextGenerators ++ gs } := by
  induction gs with
  | nil => intro o; simp
  | cons g gs ih =>
    intro o
    simp [ih, WithContextGenerator, optionFunc.apply]

theorem applyOptions_map {σ : Type} (gs : List (ContextGenerator σ)) :
    applyOptions (gs.map WithContextGenerator) = some { contextGenerators := gs } := by
  simp [applyOptions, foldl_WithContextGenerator]

/-- The calls of a prefix of a list do not depend on the rest of the list. -/
theorem pipelineCalls_append {σ : Type} (r : Request) (pre rest : List (ContextGenerator σ))
    (n : Nat) (hn : n ≤ pre.length + 1) (s : σ) :
    pipelineCalls r (pre ++ rest) n s =
      (List.range n).map (fun i =>
        Event.buildContext (0 + i) (foldGenerators r (pre.take i) Context.background s).1 r) := by
  unfold pipelineCalls
  apply List.map_congr_left
  intro i hi
  have hi1 : i ≤ pre.length := by
    have := List.mem_range.mp hi
    omega
  simp [List.take_append_of_le_length hi1]

/-- The context pipeline of a handler whose first failing generator is `g`. -/
theorem pipeline_firstFailure {σ : Type} (r : Request)
    (pre : List (ContextGenerator σ)) (g : ContextGenerator σ)
    (post : List (ContextGenerator σ)) (e : Error) (s : σ)
    (hpre : AllSucceed r pre Context.background s)
    (hfail : (g.BuildContext (foldGenerators r pre Context.background s).1 r
      (foldGenerators r pre Context.background s).2).1.2 = some e) :
    buildContext r (pre ++ g :: post) s =
      { ret := (Context.nil, some e),
        world := (g.BuildContext (foldGenerators r pre Context.background s).1 r
          (foldGenerators r pre Context.background s).2).2,
        trace := pipelineCalls r (pre ++ g :: post) (pre.length + 1) s } := by
  rw [pipelineCalls_append r pre (g :: post) (pre.length + 1) (Nat.le_refl _) s]
  exact buildContextLoop_firstFailure r pre g post e 0 Context.background s hpre hfail

/-- The calls of a pipeline are generator calls. -/
theorem pipelineCalls_counts {σ : Type} (r : Request) (gs : List (ContextGenerator σ))
    (n : Nat) (s : σ) :
    connects (pipelineCalls r gs n s) = 0 ∧ upgrades (pipelineCalls r gs n s) = 0 ∧
      closes (pipelineCalls r gs n s) = 0 ∧ fallbacks (pipelineCalls r gs n s) = 0 := by
  apply generatorTrace_counts r
  intro ev hev
  simp only [pipelineCalls, List.mem_map] at hev
  obtain ⟨i, _, hi⟩ := hev
  exact ⟨i, _, hi.symm⟩

/-! ## Runs of the model on the example collaborators -/

/-- A negotiated request on a handler with two generators: generator calls in
order, the upgrade, then the handoff with the context the generators built. -/
theorem run_negotiated :
    NewHandlerFunc (demoExternals (some demoConn, none)) demoService demoHandler
        [WithContextGenerator (markGenerator "a"), WithContextGenerator (markGenerator "b")]
        demoWriter wsRequest [] =
      { ret := (), world := ["a", "b", "upgrade"],
        trace := [Event.buildContext 0 Context.background wsRequest,
          Event.buildContext 1 (Context.withValue Context.background "a" "set") wsRequest,
          Event.upgrade demoWriter wsRequest,
          Event.connect
            (Context.withValue (Context.withValue Context.background "a" "set") "b" "set")
            demoConn demoService] } := by
  decide

/-- An upgrade that returns neither a channel nor an error. -/
theorem run_upgradeNil :
    NewHandler (demoExternals (none, none)) Context.background demoService demoHandler
        demoWriter wsRequest [] =
      { ret := (), world := ["upgrade"],
        trace := [Event.upgrade demoWriter wsRequest, Event.nilDeref] } := by
  decide

/-- The example predicate of a negotiated request, evaluated. -/
theorem run_negotiated_flags :
    negotiated (demoExternals (some demoConn, none)) none demoWriter wsRequest [] = true ∧
      negotiated (demoExternals (some otherConn, none)) none demoWriter wsRequest [] = false ∧
      negotiated (demoExternals (some demoConn, some (Error.mk "x"))) none demoWriter
        wsRequest [] = false ∧
      negotiated (demoExternals (some demoConn, none)) none demoWriter chatRequest [] = false ∧
      negotiated (demoExternals (some demoConn, none))
        (some { contextGenerators := [failGenerator "deny"] }) demoWriter wsRequest []
        = false := by
  decide

/-! ## The claims -/

/-- C1: for a request whose offered list does not contain "graphql-ws",
`processHTTPRequst` (for any `ctx` and `options`, hence for the handlers of
both constructors) calls `httpHandler.ServeHTTP` once with the given `w` and
`r` and does nothing else: the world it leaves is the one the fallback handler
leaves, and the fallback call is the only call. -/
theorem processHTTPRequst_fallback {σ : Type} (env : Externals σ) (ctx : Option Context)
    (opts : Option (options σ)) (svc : GraphQLService) (httpHandler : Handler σ)
    (w : ResponseWriter) (r : Request) (s : σ) (baseCtx : Context)
    (optionList : List (HandlerOption σ))
    (hno : "graphql-ws" ∉ env.Subprotocols r) :
    processHTTPRequst env ctx opts svc httpHandler w r s =
        { ret := (), world := httpHandler.ServeHTTP w r s, trace := [Event.serveHTTP w r] } ∧
      NewHandler env baseCtx svc httpHandler w r s =
        { ret := (), world := httpHandler.ServeHTTP w r s, trace := [Event.serveHTTP w r] } ∧
      NewHandlerFunc env svc httpHandler optionList w r s =
        { ret := (), world := httpHandler.ServeHTTP w r s, trace := [Event.serveHTTP w r] } := by
  refine ⟨?_, ?_, ?_⟩ <;>
    simp only [NewHandler, NewHandlerFunc, processHTTPRequst] <;>
    exact subprotocolLoop_noMatch env _ _ svc httpHandler w r s _ hno

/-- A request offering only near misses of "graphql-ws", on a handler with one
generator: the fallback is the only call. -/
theorem processHTTPRequst_fallback_witness :
    "graphql-ws" ∉ (demoExternals (some demoConn, none)).Subprotocols chatRequest ∧
      processHTTPRequst (demoExternals (some demoConn, none)) none
          (some { contextGenerators := [markGenerator "auth"] })
          demoService demoHandler demoWriter chatRequest [] =
        { ret := (), world := ["fallback"],
          trace := [Event.serveHTTP demoWriter chatRequest] } :=
  ⟨by decide,
    (processHTTPRequst_fallback (demoExternals (some demoConn, none)) none
      (some { contextGenerators := [markGenerator "auth"] })
      demoService demoHandler demoWriter chatRequest [] Context.background []
      (by decide)).1⟩

/-- C2: for a handler built by `NewHandlerFunc` from the generators
`pre ++ g :: post` (N generators, k the length of `pre`) and a request offering
"graphql-ws": if the generators of `pre` succeed and `g` then returns an
error, the handler makes exactly the calls "generators 1 to k+1, each once, in
order" and nothing else: no generator of `post`, no upgrade, no close, no
handoff, no fallback; the world is the one generator k+1 left. -/
theorem NewHandlerFunc_generatorFailure {σ : Type} (env : Externals σ)
    (svc : GraphQLService) (httpHandler : Handler σ)
    (pre : List (ContextGenerator σ)) (g : ContextGenerator σ)
    (post : List (ContextGenerator σ)) (e : Error)
    (w : ResponseWriter) (r : Request) (s : σ)
    (hoffer : "graphql-ws" ∈ env.Subprotocols r)
    (hpre : AllSucceed r pre Context.background s)
    (hfail : (g.BuildContext (foldGenerators r pre Context.background s).1 r
      (foldGenerators r pre Context.background s).2).1.2 = some e) :
    NewHandlerFunc env svc httpHandler ((pre ++ g :: post).map WithContextGenerator) w r s =
        { ret := (),
          world := (g.BuildContext (foldGenerators r pre Context.background s).1 r
            (foldGenerators r pre Context.background s).2).2,
          trace := pipelineCalls r (pre ++ g :: post) (pre.length + 1) s } ∧
      upgrades (NewHandlerFunc env svc httpHandler
        ((pre ++ g :: post).map WithContextGenerator) w r s).trace = 0 ∧
      connects (NewHandlerFunc env svc httpHandler
        ((pre ++ g :: post).map WithContextGenerator) w r s).trace = 0 ∧
      closes (NewHandlerFunc env svc httpHandler
        ((pre ++ g :: post).map WithContextGenerator) w r s).trace = 0 ∧
      fallbacks (NewHandlerFunc env svc httpHandler
        ((pre ++ g :: post).map WithContextGenerator) w r s).trace = 0 := by
  obtain ⟨hc, hu, hcl, hf⟩ := pipelineCalls_counts r (pre ++ g :: post) (pre.length + 1) s
  have hb := pipeline_firstFailure r pre g post e s hpre hfail
  have hp : (pipeline r (some { contextGenerators := pre ++ g :: post }) s).ret = some e := by
    simp [pipeline, hb]
  have hrun : NewHandlerFunc env svc httpHandler
      ((pre ++ g :: post).map WithContextGenerator) w r s =
      { ret := (),
        world := (g.BuildContext (foldGenerators r pre Context.background s).1 r
          (foldGenerators r pre Context.background s).2).2,
        trace := pipelineCalls r (pre ++ g :: post) (pre.length + 1) s } := by
    simp only [NewHandlerFunc, applyOptions_map]
    rw [processHTTPRequst_pipelineError env none _ svc httpHandler w r s e hoffer hp]
    simp [pipeline, hb]
  rw [hrun]
  exact ⟨rfl, hu, hc, hcl, hf⟩

/-- Four generators of which the third fails: the first three are called, the
fourth is not, and nothing follows. -/
theorem NewHandlerFunc_generatorFailure_witness :
    NewHandlerFunc (demoExternals (some demoConn, none)) demoService demoHandler
        (([markGenerator "a", markGenerator "b"] ++
          failGenerator "deny" :: [markGenerator "late"]).map WithContextGenerator)
        demoWriter wsRequest [] =
      { ret := (), world := ["a", "b", "deny"],
        trace := [Event.buildContext 0 Context.background wsRequest,
          Event.buildContext 1 (Context.withValue Context.background "a" "set") wsRequest,
          Event.buildContext 2
            (Context.withValue (Context.withValue Context.background "a" "set") "b" "set")
            wsRequest] } :=
  (NewHandlerFunc_generatorFailure (demoExternals (some demoConn, none)) demoService
    demoHandler [markGenerator "a", markGenerator "b"] (failGenerator "deny")
    [markGenerator "late"] (Error.mk "deny") demoWriter wsRequest []
    (by decide) ⟨rfl, rfl, trivial⟩ rfl).1

/-- C3: when every generator of the list succeeds, `buildContext` returns the
left fold of the generators from `context.Background()` with a nil error,
having called each generator once, in list order, on the output context of its
predecessor and the request `r`; for the empty list it returns
`context.Background()` and calls nothing. -/
theorem buildContext_fold {σ : Type} (r : Request) (gs : List (ContextGenerator σ)) (s : σ)
    (hall : AllSucceed r gs Context.background s) :
    buildContext r gs s =
        { ret := ((foldGenerators r gs Context.background s).1, none),
          world := (foldGenerators r gs Context.background s).2,
          trace := pipelineCalls r gs gs.length s } ∧
      buildContext r ([] : List (ContextGenerator σ)) s =
        { ret := (Context.background, none), world := s, trace := [] } := by
  refine ⟨?_, rfl⟩
  have h := buildContextLoop_allSucceed r gs 0 Context.background s hall
  simp only [Nat.zero_add] at h
  exact h

/-- Two succeeding generators: the second one sees the context of the first. -/
theorem buildContext_fold_witness :
    buildContext wsRequest [markGenerator "a", markGenerator "b"] [] =
      { ret := (Context.withValue (Context.withValue Context.background "a" "set") "b" "set",
          none),
        world := ["a", "b"],
        trace := [Event.buildContext 0 Context.background wsRequest,
          Event.buildContext 1 (Context.withValue Context.background "a" "set") wsRequest] } :=
  (buildContext_fold wsRequest [markGenerator "a", markGenerator "b"] []
    ⟨rfl, rfl, trivial⟩).1

/-- C4: `applyOptions` on the options `WithContextGenerator(g1)`, ...,
`WithContextGenerator(gN)` returns a pointer that is not nil, to options whose
`contextGenerators` is exactly the list g1, ..., gN; applying one such option
appends its generator at the end of the sequence and leaves what was there in
place; the handler of `NewHandlerFunc` runs `processHTTPRequst` on that list. -/
theorem applyOptions_WithContextGenerator {σ : Type} (gs : List (ContextGenerator σ)) :
    applyOptions (gs.map WithContextGenerator) = some { contextGenerators := gs } ∧
      (∀ (g : ContextGenerator σ) (o : options σ),
        (WithContextGenerator g).apply o =
          { contextGenerators := o.contextGenerators ++ [g] }) ∧
      (∀ (env : Externals σ) (svc : GraphQLService) (httpHandler : Handler σ),
        NewHandlerFunc env svc httpHandler (gs.map WithContextGenerator) =
          processHTTPRequst env none (some { contextGenerators := gs }) svc httpHandler) := by
  refine ⟨applyOptions_map gs, fun g o => rfl, fun env svc httpHandler => ?_⟩
  simp only [NewHandlerFunc, applyOptions_map]

/-- C8, amended: when the generators of `pre` succeed and the next generator `g`
fails with error `e`, `buildContext` on `pre ++ g :: post` returns the nil
context together with `e` itself, the error of that first failing generator,
unchanged and in no wrapper, whatever the generators of `post` would do,
having called the generators up to `g` and no other. -/
theorem buildContext_firstFailure {σ : Type} (r : Request)
    (pre : List (ContextGenerator σ)) (g : ContextGenerator σ)
    (post : List (ContextGenerator σ)) (e : Error) (s : σ)
    (hpre : AllSucceed r pre Context.background s)
    (hfail : (g.BuildContext (foldGenerators r pre Context.background s).1 r
      (foldGenerators r pre Context.background s).2).1.2 = some e) :
    (buildContext r (pre ++ g :: post) s).ret = (Context.nil, some e) ∧
      (buildContext r (pre ++ g :: post) s).trace =
        pipelineCalls r (pre ++ g :: post) (pre.length + 1) s := by
  rw [pipeline_firstFailure r pre g post e s hpre hfail]
  exact ⟨rfl, rfl⟩

/-- Two failing generators after a succeeding one: the error is that of the
first of the two. -/
theorem buildContext_firstFailure_witness :
    (buildContext wsRequest
        ([markGenerator "a"] ++ failGenerator "deny" :: [failGenerator "later"]) []).ret =
      (Context.nil, some (Error.mk "deny")) :=
  (buildContext_firstFailure wsRequest [markGenerator "a"] (failGenerator "deny")
    [failGenerator "later"] (Error.mk "deny") [] ⟨rfl, trivial⟩ rfl).1

/-- A succeeding generator followed by one that fails with `deny`: the
conditions hold, and the error `buildContext` returns is `deny` as the
generator gave it.  It is not a `ContextBuildError` wrapping `deny`, and it
wraps no error at all. -/
theorem buildContext_returns_unwrapped :
    AllSucceed wsRequest [markGenerator "a"] Context.background [] ∧
      ((failGenerator "deny").BuildContext
        (foldGenerators wsRequest [markGenerator "a"] Context.background []).1 wsRequest
        (foldGenerators wsRequest [markGenerator "a"] Context.background []).2).1.2 =
        some (Error.mk "deny") ∧
      (buildContext wsRequest
        ([markGenerator "a"] ++ failGenerator "deny" :: [failGenerator "later"]) []).ret.2 ≠
        some (ContextBuildError (Error.mk "deny")) ∧
      (buildContext wsRequest
        ([markGenerator "a"] ++ failGenerator "deny" :: [failGenerator "later"]) []).ret.2 =
        some (Error.mk "deny") ∧
      Error.Unwrap (Error.mk "deny") = none :=
  ⟨⟨rfl, trivial⟩, rfl, by decide, rfl, rfl⟩

/-- C5: for every request, every `ctx` and `options`, and every behaviour of
the generators and of the upgrade, `processHTTPRequst` starts the handoff
`connection.Connect` exactly once when the request is successfully negotiated
and zero times otherwise, and it calls `upgrader.Upgrade` at most once. -/
theorem processHTTPRequst_handoff_count {σ : Type} (env : Externals σ)
    (ctx : Option Context) (opts : Option (options σ)) (svc : GraphQLService)
    (httpHandler : Handler σ) (w : ResponseWriter) (r : Request) (s : σ) :
    connects (processHTTPRequst env ctx opts svc httpHandler w r s).trace =
        (if negotiated env opts w r s then 1 else 0) ∧
      upgrades (processHTTPRequst env ctx opts svc httpHandler w r s).trace ≤ 1 := by
  obtain ⟨hc, hu, _, _⟩ := pipeline_counts r opts s
  by_cases hoffer : "graphql-ws" ∈ env.Subprotocols r
  · cases hpipe : (pipeline r opts s).ret with
    | some e =>
      rw [processHTTPRequst_pipelineError env ctx opts svc httpHandler w r s e hoffer hpipe]
      simp [negotiated, hpipe, hc, hu]
    | none =>
      rcases hup : env.Upgrade w r (pipeline r opts s).world with ⟨⟨ws, err⟩, s1⟩
      cases err with
      | some e =>
        rw [processHTTPRequst_upgradeError env ctx opts svc httpHandler w r s s1 ws e
          hoffer hpipe hup]
        simp only [connects_append, upgrades_append, hc, hu]
        simp [negotiated, hup, connects, upgrades]
      | none =>
        cases ws with
        | none =>
          rw [processHTTPRequst_upgradeNil env ctx opts svc httpHandler w r s s1
            hoffer hpipe hup]
          simp only [connects_append, upgrades_append, hc, hu]
          simp [negotiated, hup, connects, upgrades]
        | some c =>
          by_cases hsub : c.Subprotocol = "graphql-ws"
          · rw [processHTTPRequst_handoff env ctx opts svc httpHandler w r s s1 c
              hoffer hpipe hup hsub]
            simp only [connects_append, upgrades_append, hc, hu]
            simp [negotiated, hup, hoffer, hpipe, hsub, connects, upgrades]
          · rw [processHTTPRequst_mismatch env ctx opts svc httpHandler w r s s1 c
              hoffer hpipe hup hsub]
            simp only [connects_append, upgrades_append, hc, hu]
            simp [negotiated, hup, hsub, connects, upgrades]
  · have hfb : processHTTPRequst env ctx opts svc httpHandler w r s =
        { ret := (), world := httpHandler.ServeHTTP w r s,
          trace := [Event.serveHTTP w r] } := by
      simp only [processHTTPRequst]
      exact subprotocolLoop_noMatch env _ _ svc httpHandler w r s _ hoffer
    rw [hfb]
    simp [negotiated, hoffer, connects, upgrades]

/-- Two generators, a request offering "graphql-ws" twice and a successful
upgrade: one handoff and one upgrade call. -/
theorem processHTTPRequst_handoff_count_witness :
    connects (processHTTPRequst (demoExternals (some demoConn, none)) none
        (some { contextGenerators := [markGenerator "a", markGenerator "b"] })
        demoService demoHandler demoWriter wsRequest []).trace = 1 ∧
      upgrades (processHTTPRequst (demoExternals (some demoConn, none)) none
        (some { contextGenerators := [markGenerator "a", markGenerator "b"] })
        demoService demoHandler demoWriter wsRequest []).trace ≤ 1 :=
  processHTTPRequst_handoff_count (demoExternals (some demoConn, none)) none
    (some { contextGenerators := [markGenerator "a", markGenerator "b"] })
    demoService demoHandler demoWriter wsRequest []

/-- C6: for a handler built by `NewHandlerFunc` with no options and a request
offering "graphql-ws" whose upgrade succeeds with the subprotocol "graphql-ws",
the handler calls the upgrade and then starts the handoff once, with
`context.Background()`, the upgraded channel and the service given at
construction; it makes no other call. -/
theorem NewHandlerFunc_noOptions_handoff {σ : Type} (env : Externals σ)
    (svc : GraphQLService) (httpHandler : Handler σ) (w : ResponseWriter) (r : Request)
    (s s1 : σ) (ws : Conn)
    (hoffer : "graphql-ws" ∈ env.Subprotocols r)
    (hup : env.Upgrade w r s = ((some ws, none), s1))
    (hsub : ws.Subprotocol = "graphql-ws") :
    NewHandlerFunc env svc httpHandler [] w r s =
        { ret := (), world := s1,
          trace := [Event.upgrade w r, Event.connect Context.background ws svc] } ∧
      connects (NewHandlerFunc env svc httpHandler [] w r s).trace = 1 := by
  have hp : (pipeline r (some ({ contextGenerators := [] } : options σ)) s).ret = none := rfl
  have h := processHTTPRequst_handoff env none (some { contextGenerators := [] }) svc
    httpHandler w r s s1 ws hoffer hp hup hsub
  have hrun : NewHandlerFunc env svc httpHandler [] w r s =
      { ret := (), world := s1,
        trace := [Event.upgrade w r, Event.connect Context.background ws svc] } := by
    simp only [NewHandlerFunc, applyOptions, List.foldl_nil]
    rw [h]
    rfl
  refine ⟨hrun, ?_⟩
  rw [hrun]
  simp [connects]

/-- No options and a successful upgrade: one handoff, with the empty base context. -/
theorem NewHandlerFunc_noOptions_handoff_witness :
    NewHandlerFunc (demoExternals (some demoConn, none)) demoService demoHandler []
        demoWriter wsRequest [] =
      { ret := (), world := ["upgrade"],
        trace := [Event.upgrade demoWriter wsRequest,
          Event.connect Context.background demoConn demoService] } :=
  (NewHandlerFunc_noOptions_handoff (demoExternals (some demoConn, none)) demoService
    demoHandler demoWriter wsRequest [] ["upgrade"] demoConn (by decide) rfl rfl).1

/-- C7: for a handler built by `NewHandler` with base context `ctx` and a
request that is successfully negotiated, the handoff is started with exactly
`ctx`; the handler calls the upgrade and the handoff and nothing else, so no
context generator is called. -/
theorem NewHandler_fixedContext {σ : Type} (env : Externals σ) (ctx : Context)
    (svc : GraphQLService) (httpHandler : Handler σ) (w : ResponseWriter) (r : Request)
    (s s1 : σ) (ws : Conn)
    (hoffer : "graphql-ws" ∈ env.Subprotocols r)
    (hup : env.Upgrade w r s = ((some ws, none), s1))
    (hsub : ws.Subprotocol = "graphql-ws") :
    NewHandler env ctx svc httpHandler w r s =
        { ret := (), world := s1,
          trace := [Event.upgrade w r, Event.connect ctx ws svc] } ∧
      generatorCalls (NewHandler env ctx svc httpHandler w r s).trace = 0 := by
  have hp : (pipeline r (none : Option (options σ)) s).ret = none := rfl
  have h := processHTTPRequst_handoff env (some ctx) none svc httpHandler w r s s1 ws
    hoffer hp hup hsub
  have hrun : NewHandler env ctx svc httpHandler w r s =
      { ret := (), world := s1, trace := [Event.upgrade w r, Event.connect ctx ws svc] } := by
    simp only [NewHandler]
    rw [h]
    rfl
  refine ⟨hrun, ?_⟩
  rw [hrun]
  simp [generatorCalls]

/-- A fixed context with a value: the handoff receives that context. -/
theorem NewHandler_fixedContext_witness :
    NewHandler (demoExternals (some demoConn, none))
        (Context.withValue Context.background "user" "ann") demoService demoHandler
        demoWriter wsRequest [] =
      { ret := (), world := ["upgrade"],
        trace := [Event.upgrade demoWriter wsRequest,
          Event.connect (Context.withValue Context.background "user" "ann") demoConn
            demoService] } :=
  (NewHandler_fixedContext (demoExternals (some demoConn, none))
    (Context.withValue Context.background "user" "ann") demoService demoHandler
    demoWriter wsRequest [] ["upgrade"] demoConn (by decide) rfl rfl).1

/-- C9: for a request offering "graphql-ws" whose context pipeline (if any)
succeeds and whose upgrade succeeds with a channel reporting a subprotocol
other than "graphql-ws", `processHTTPRequst` makes the generator calls, the
upgrade and then `ws.Close` on that channel, once, and nothing else: no
handoff and no fallback. -/
theorem processHTTPRequst_subprotocolMismatch {σ : Type} (env : Externals σ)
    (ctx : Option Context) (opts : Option (options σ)) (svc : GraphQLService)
    (httpHandler : Handler σ) (w : ResponseWriter) (r : Request) (s s1 : σ) (ws : Conn)
    (hoffer : "graphql-ws" ∈ env.Subprotocols r)
    (hpipe : (pipeline r opts s).ret = none)
    (hup : env.Upgrade w r (pipeline r opts s).world = ((some ws, none), s1))
    (hsub : ws.Subprotocol ≠ "graphql-ws") :
    processHTTPRequst env ctx opts svc httpHandler w r s =
        { ret := (), world := env.Close ws s1,
          trace := (pipeline r opts s).trace ++ [Event.upgrade w r, Event.close ws] } ∧
      closes (processHTTPRequst env ctx opts svc httpHandler w r s).trace = 1 ∧
      connects (processHTTPRequst env ctx opts svc httpHandler w r s).trace = 0 ∧
      fallbacks (processHTTPRequst env ctx opts svc httpHandler w r s).trace = 0 := by
  obtain ⟨hc, _, hcl, hf⟩ := pipeline_counts r opts s
  rw [processHTTPRequst_mismatch env ctx opts svc httpHandler w r s s1 ws hoffer hpipe hup
    hsub]
  refine ⟨rfl, ?_, ?_, ?_⟩
  · rw [closes_append, hcl]; simp [closes]
  · rw [connects_append, hc]; simp [connects]
  · rw [fallbacks_append, hf]; simp [fallbacks]

/-- An upgrade that negotiated "chat": the channel is closed and nothing follows. -/
theorem processHTTPRequst_subprotocolMismatch_witness :
    processHTTPRequst (demoExternals (some otherConn, none)) none
        (some { contextGenerators := [markGenerator "auth"] })
        demoService demoHandler demoWriter wsRequest [] =
      { ret := (), world := ["auth", "upgrade", "close"],
        trace := [Event.buildContext 0 Context.background wsRequest,
          Event.upgrade demoWriter wsRequest, Event.close otherConn] } :=
  (processHTTPRequst_subprotocolMismatch (demoExternals (some otherConn, none)) none
    (some { contextGenerators := [markGenerator "auth"] })
    demoService demoHandler demoWriter wsRequest [] ["auth", "upgrade"] otherConn
    (by decide) rfl rfl (by decide)).1

/-- C10: for a request offering "graphql-ws" whose context pipeline (if any)
succeeds and whose upgrade returns an error, `processHTTPRequst` makes the
generator calls and the one upgrade call and nothing else: no second upgrade,
no close, no handoff and no fallback. -/
theorem processHTTPRequst_upgradeFailure {σ : Type} (env : Externals σ)
    (ctx : Option Context) (opts : Option (options σ)) (svc : GraphQLService)
    (httpHandler : Handler σ) (w : ResponseWriter) (r : Request) (s s1 : σ)
    (ws : Option Conn) (e : Error)
    (hoffer : "graphql-ws" ∈ env.Subprotocols r)
    (hpipe : (pipeline r opts s).ret = none)
    (hup : env.Upgrade w r (pipeline r opts s).world = ((ws, some e), s1)) :
    processHTTPRequst env ctx opts svc httpHandler w r s =
        { ret := (), world := s1,
          trace := (pipeline r opts s).trace ++ [Event.upgrade w r] } ∧
      upgrades (processHTTPRequst env ctx opts svc httpHandler w r s).trace = 1 ∧
      closes (processHTTPRequst env ctx opts svc httpHandler w r s).trace = 0 ∧
      connects (processHTTPRequst env ctx opts svc httpHandler w r s).trace = 0 ∧
      fallbacks (processHTTPRequst env ctx opts svc httpHandler w r s).trace = 0 := by
  obtain ⟨hc, hu, hcl, hf⟩ := pipeline_counts r opts s
  rw [processHTTPRequst_upgradeError env ctx opts svc httpHandler w r s s1 ws e hoffer hpipe
    hup]
  refine ⟨rfl, ?_, ?_, ?_, ?_⟩
  · rw [upgrades_append, hu]; simp [upgrades]
  · rw [closes_append, hcl]; simp [closes]
  · rw [connects_append, hc]; simp [connects]
  · rw [fallbacks_append, hf]; simp [fallbacks]

/-- An upgrade that fails on a request offering "graphql-ws" twice: one upgrade
call and nothing after it. -/
theorem processHTTPRequst_upgradeFailure_witness :
    processHTTPRequst (demoExternals (none, some (Error.mk "bad handshake"))) none
        (some { contextGenerators := [markGenerator "auth"] })
        demoService demoHandler demoWriter wsRequest [] =
      { ret := (), world := ["auth", "upgrade"],
        trace := [Event.buildContext 0 Context.background wsRequest,
          Event.upgrade demoWriter wsRequest] } :=
  (processHTTPRequst_upgradeFailure (demoExternals (none, some (Error.mk "bad handshake")))
    none (some { contextGenerators := [markGenerator "auth"] })
    demoService demoHandler demoWriter wsRequest [] ["auth", "upgrade"] none
    (Error.mk "bad handshake") (by decide) rfl rfl).1

end graphqlws
